import Mathlib

/-!
Verification of the Monaco 2018 racing report core (`reporting_gen.py`, `app.py`).

The Python source is shallowly embedded below.  Timestamps are modelled as
natural numbers counting microseconds in the proleptic Gregorian calendar
(`datetime` comparison and subtraction agree with this encoding on valid
dates).  Exceptions raised by the Python code (`AttributeError` on the unset
`end_time` dataclass field, `ValueError` from `strptime` or from tuple
unpacking) are modelled with `Except Unit`; a caught `IOError` while opening a
file is modelled by the file's contents being `none`.
-/

namespace Monaco

/-- The seven numeric fields captured by the log-line regular expression
`([A-Z]\x7b3\x7d)(\d\x7b4\x7d-\d\x7b2\x7d-\d\x7b2\x7d_\d\x7b2\x7d:\d\x7b2\x7d:\d\x7b2\x7d\.\d\x7b3\x7d)`. -/
structure TsFields where
  y : Nat
  mo : Nat
  d : Nat
  h : Nat
  mi : Nat
  s : Nat
  ms : Nat
deriving DecidableEq, Repr

/-- Read exactly `n` ASCII digits from the front of a character list,
returning their value and the rest of the input. -/
def readDigitsAux : Nat → Nat → List Char → Option (Nat × List Char)
  | 0, acc, cs => some (acc, cs)
  | _ + 1, _, [] => none
  | n + 1, acc, c :: cs =>
    if c.isDigit then readDigitsAux n (acc * 10 + (c.toNat - '0'.toNat)) cs else none

/-- Expect one literal character at the front of the input. -/
def expectChar (ch : Char) : List Char → Option (List Char)
  | [] => none
  | c :: cs => if c = ch then some cs else none

/-- Read exactly `n` ASCII digits followed by the literal separator `sep`. -/
def readNumSep (n : Nat) (sep : Char) (cs : List Char) : Option (Nat × List Char) :=
  match readDigitsAux n 0 cs with
  | none => none
  | some (v, rest) =>
    match expectChar sep rest with
    | none => none
    | some rest2 => some (v, rest2)

/-- Read the timestamp part `\d\x7b4\x7d-\d\x7b2\x7d-\d\x7b2\x7d_\d\x7b2\x7d:\d\x7b2\x7d:\d\x7b2\x7d\.\d\x7b3\x7d`
of a log line (trailing characters permitted). -/
def readTimestamp (cs : List Char) : Option TsFields :=
  match readNumSep 4 '-' cs with
  | none => none
  | some (y, r1) =>
    match readNumSep 2 '-' r1 with
    | none => none
    | some (mo, r2) =>
      match readNumSep 2 '_' r2 with
      | none => none
      | some (d, r3) =>
        match readNumSep 2 ':' r3 with
        | none => none
        | some (h, r4) =>
          match readNumSep 2 ':' r4 with
          | none => none
          | some (mi, r5) =>
            match readNumSep 2 '.' r5 with
            | none => none
            | some (s, r6) =>
              match readDigitsAux 3 0 r6 with
              | none => none
              | some (ms, _) => some ⟨y, mo, d, h, mi, s, ms⟩

/-- Model of `re.match` of `([A-Z]\x7b3\x7d)(\d\x7b4\x7d-\d\x7b2\x7d-\d\x7b2\x7d_\d\x7b2\x7d:\d\x7b2\x7d:\d\x7b2\x7d\.\d\x7b3\x7d)` against a
line: anchored at the start, trailing characters permitted.  Returns the
three-letter code and the timestamp fields on success. -/
def matchLogLine (s : String) : Option (String × TsFields) :=
  match s.data with
  | c1 :: c2 :: c3 :: rest =>
    if ('A' ≤ c1 ∧ c1 ≤ 'Z') ∧ ('A' ≤ c2 ∧ c2 ≤ 'Z') ∧ ('A' ≤ c3 ∧ c3 ≤ 'Z') then
      match readTimestamp rest with
      | none => none
      | some tf => some (String.mk [c1, c2, c3], tf)
    else none
  | _ => none

/-- Gregorian leap-year rule, as used by Python `datetime`. -/
def isLeapYear (y : Nat) : Bool :=
  y % 4 = 0 && (y % 100 ≠ 0 || y % 400 = 0)

/-- Length of month `mo` in year `y`. -/
def daysInMonth (y mo : Nat) : Nat :=
  if mo = 2 then (if isLeapYear y then 29 else 28)
  else if mo = 4 ∨ mo = 6 ∨ mo = 9 ∨ mo = 11 then 30
  else 31

/-- Days in year `y` strictly before month `mo`. -/
def daysBeforeMonth (y mo : Nat) : Nat :=
  ((List.range mo).drop 1).foldl (fun acc k => acc + daysInMonth y k) 0

/-- Days from 0001-01-01 to the given proleptic Gregorian date. -/
def daysFromCivil (y mo d : Nat) : Nat :=
  365 * (y - 1) + (y - 1) / 4 - (y - 1) / 100 + (y - 1) / 400 + daysBeforeMonth y mo + (d - 1)

/-- The range checks performed by `datetime.strptime` with format
`%Y-%m-%d_%H:%M:%S.%f` (year at least 1, month 1-12, day valid for the month,
hour 0-23, minute and second 0-59). -/
def strptimeValid (t : TsFields) : Bool :=
  1 ≤ t.y && 1 ≤ t.mo && t.mo ≤ 12 && 1 ≤ t.d && t.d ≤ daysInMonth t.y t.mo &&
    t.h ≤ 23 && t.mi ≤ 59 && t.s ≤ 59

/-- Model of `datetime.strptime(ts, '%Y-%m-%d_%H:%M:%S.%f')`: `none` models the
`ValueError` raised for an out-of-range date; on success the datetime is
encoded as microseconds since 0001-01-01 00:00:00 (a three-digit `%f` field
denotes milliseconds, hence the factor 1000). -/
def strptime (t : TsFields) : Option Nat :=
  if strptimeValid t then
    some (((((daysFromCivil t.y t.mo t.d) * 24 + t.h) * 60 + t.mi) * 60 + t.s) * 1000000
      + t.ms * 1000)
  else none

/-- Python `str.strip()`: remove whitespace from both ends. -/
def pyStrip (s : String) : String :=
  String.mk (((s.data.dropWhile Char.isWhitespace).reverse.dropWhile Char.isWhitespace).reverse)

/-- Helper for `pySplit`: accumulate the current field (reversed). -/
def splitAux (sep : Char) : List Char → List Char → List String
  | [], cur => [String.mk cur.reverse]
  | c :: cs, cur =>
    if c = sep then String.mk cur.reverse :: splitAux sep cs [] else splitAux sep cs (c :: cur)

/-- Python `str.split(sep)` with a one-character separator (`''.split('_')`
is `['']`, adjacent separators yield empty fields). -/
def pySplit (sep : Char) (s : String) : List String :=
  splitAux sep s.data []

/-- Assignment `data[driver_init] = timestamp` on a Python dict modelled as an
association list: an existing key keeps its position and gets the new value,
a new key is appended at the end (dict insertion order). -/
def alistInsert (k : String) (v : Nat) : List (String × Nat) → List (String × Nat)
  | [] => [(k, v)]
  | (k', v') :: rest => if k' = k then (k', v) :: rest else (k', v') :: alistInsert k v rest

/-- Dict lookup on the association list. -/
def alistLookup (k : String) : List (String × Nat) → Option Nat
  | [] => none
  | (k', v) :: rest => if k' = k then some v else alistLookup k rest

/-- The line loop of `Q1Processor.read_log_file`: each line is stripped and
matched; non-matching lines are skipped; a matching line is parsed with
`strptime` (whose `ValueError` propagates, modelled as `Except.error`) and
stored under its code, overwriting any earlier entry. -/
def readLines : List String → List (String × Nat) → Except Unit (List (String × Nat))
  | [], acc => .ok acc
  | line :: rest, acc =>
    match matchLogLine (pyStrip line) with
    | none => readLines rest acc
    | some (code, tf) =>
      match strptime tf with
      | none => .error ()
      | some ts => readLines rest (alistInsert code ts acc)

/-- Model of `Q1Processor.read_log_file`: a file that cannot be opened (`IOError`,
caught and logged) is modelled by `none` and contributes the empty dict. -/
def read_log_file (content : Option (List String)) : Except Unit (List (String × Nat)) :=
  match content with
  | none => .ok []
  | some lines => readLines lines []

/-- The `DriverLapInfo` dataclass.  `end_time = none` models the
`field(init=False)` attribute never having been assigned (so that reading it
raises `AttributeError`). -/
structure DriverLapInfo where
  driver_init : String
  start_time : Nat
  end_time : Option Nat
  driver_name : String
  team : String
deriving DecidableEq, Repr

/-- The `driver_lap_time` property: reading the unset `end_time` attribute
raises `AttributeError` (`Except.error`); otherwise the lap time is `None`
when `end_time < start_time` and `end_time - start_time` when it is not. -/
def driver_lap_time (d : DriverLapInfo) : Except Unit (Option Nat) :=
  match d.end_time with
  | none => .error ()
  | some e => if e < d.start_time then .ok none else .ok (some (e - d.start_time))

/-- The value of `driver_lap_time` at a record whose property access is
already known to succeed (every use below is guarded by a prior successful
evaluation of the property on the same record). -/
def pyLapTime (d : DriverLapInfo) : Option Nat :=
  match driver_lap_time d with
  | .ok t => t
  | .error _ => none

/-- The two metadata assignments guarded by `if driver_init in self.drivers`:
update the record whose key matches, leave everything else unchanged. -/
def updateDriver (code nm tm : String) : List DriverLapInfo → List DriverLapInfo
  | [] => []
  | d :: ds =>
    if d.driver_init = code then
      { d with driver_name := nm, team := tm } :: ds
    else
      d :: updateDriver code nm tm ds

/-- The line loop of `Q1Processor.integrate_driver_info`:
`driver_init, driver_name, team = line.strip().split('_')` raises an uncaught
`ValueError` unless the stripped line splits into exactly three fields. -/
def integrateLines : List String → List DriverLapInfo → Except Unit (List DriverLapInfo)
  | [], ds => .ok ds
  | line :: rest, ds =>
    match pySplit '_' (pyStrip line) with
    | [a, b, c] => integrateLines rest (updateDriver a b c ds)
    | _ => .error ()

/-- Model of `Q1Processor.integrate_driver_info`: an unreadable abbreviations file
(`IOError`, caught) leaves the records untouched. -/
def integrate_driver_info (content : Option (List String)) (ds : List DriverLapInfo) :
    Except Unit (List DriverLapInfo) :=
  match content with
  | none => .ok ds
  | some lines => integrateLines lines ds

/-- Model of `Q1Processor.process_files`: read both logs, build one record per start
entry (attaching the end time when the code is present in the end dict), then
run the metadata pass. -/
def process_files (startC endC abbrC : Option (List String)) :
    Except Unit (List DriverLapInfo) :=
  match read_log_file startC with
  | .error e => .error e
  | .ok start_times =>
    match read_log_file endC with
    | .error e => .error e
    | .ok end_times =>
      integrate_driver_info abbrC
        (start_times.map fun p =>
          { driver_init := p.1, start_time := p.2,
            end_time := alistLookup p.1 end_times, driver_name := "", team := "" })

/-- The sort key `lambda x: (x.driver_lap_time is None, x.driver_lap_time)`
of `Q1ReportGenerator.rank_drivers` (evaluated only after the property has
been computed successfully for every element). -/
def lapKey (d : DriverLapInfo) : Bool × Option Nat :=
  ((pyLapTime d).isNone, pyLapTime d)

/-- Python `<=` on the second key component (`None` compares equal to itself;
the mixed cases never arise because the first component separates them). -/
def optLE : Option Nat → Option Nat → Bool
  | none, _ => true
  | some _, none => false
  | some x, some y => x ≤ y

/-- Python `<=` on sort keys: lexicographic on `(Bool, Option timedelta)`
with `False < True`. -/
def keyLE (a b : Bool × Option Nat) : Bool :=
  if a.1 = b.1 then optLE a.2 b.2 else b.1

/-- The comparison used by `drivers.sort(key=..., reverse=(order == 'desc'))`:
`rel order a b` holds when `a` may be placed before `b`.  Python's stable sort
with `reverse=True` keeps elements with equal keys in their original order, so
the reversed comparison is `keyLE` with the arguments swapped. -/
def rel (order : String) (a b : DriverLapInfo) : Bool :=
  if order = "desc" then keyLE (lapKey b) (lapKey a) else keyLE (lapKey a) (lapKey b)

/-- Stable insertion: place `a` before the first element it compares
less-or-equal to. -/
def insertLe (le : α → α → Bool) (a : α) : List α → List α
  | [] => [a]
  | b :: l => if le a b then a :: b :: l else b :: insertLe le a l

/-- Stable sort by a total boolean preorder; on such a preorder this agrees
with Python's stable `list.sort` (equal keys keep their original order). -/
def pySort (le : α → α → Bool) : List α → List α
  | [] => []
  | a :: l => insertLe le a (pySort le l)

/-- Python `list.sort(key=...)` computes the key of every element up front, in list
order; the first record whose `end_time` attribute is unset raises
`AttributeError`. -/
def mapLap : List DriverLapInfo → Except Unit (List (Option Nat))
  | [] => .ok []
  | d :: ds =>
    match driver_lap_time d with
    | .error e => .error e
    | .ok t =>
      match mapLap ds with
      | .error e => .error e
      | .ok ts => .ok (t :: ts)

/-- Model of `Q1ReportGenerator.rank_drivers`. -/
def rank_drivers (drivers : List DriverLapInfo) (order : String) :
    Except Unit (List DriverLapInfo) :=
  match mapLap drivers with
  | .error e => .error e
  | .ok _ => .ok (pySort (rel order) drivers)

/-- Left-pad a numeral with zeros to width `w`. -/
def zeroPad (w : Nat) (n : Nat) : String :=
  let s := toString n
  if s.length < w then String.mk (List.replicate (w - s.length) '0') ++ s else s

/-- Python `str(timedelta)` for a nonnegative duration in microseconds:
`H:MM:SS`, with `.ffffff` appended when the microsecond part is nonzero and a
day count prepended when the duration reaches a day. -/
def timedeltaStr (us : Nat) : String :=
  let micro := us % 1000000
  let totalSeconds := us / 1000000
  let s := totalSeconds % 60
  let m := (totalSeconds / 60) % 60
  let h := (totalSeconds / 3600) % 24
  let days := totalSeconds / 86400
  let hms := toString h ++ ":" ++ zeroPad 2 m ++ ":" ++ zeroPad 2 s
  let withF := if micro = 0 then hms else hms ++ "." ++ zeroPad 6 micro
  if days = 0 then withF
  else toString days ++ (if days = 1 then " day, " else " days, ") ++ withF

/-- The expression `str(x) if x else "NO TIME"` where `x` is the lap-time value: a Python
`timedelta` is falsy exactly when it is zero, and `None` is falsy, so the
sentinel is produced both for an undefined lap time and for a lap time of
exactly zero. -/
def lapTimeCell (t : Option Nat) : String :=
  match t with
  | some dt => if dt = 0 then "NO TIME" else timedeltaStr dt
  | none => "NO TIME"

/-- One dictionary built by the loop of `Q1ReportGenerator.get_report_data`. -/
structure ReportEntry where
  position : Nat
  name : String
  team : String
  lap_time : String
  eliminated : Bool
deriving DecidableEq, Repr

/-- Python `enumerate(ranked_drivers, start=i)`. -/
def enumerate1 (i : Nat) : List α → List (Nat × α)
  | [] => []
  | a :: l => (i, a) :: enumerate1 (i + 1) l

/-- The entry built for `(i, driver)` when the ranked list has length `n`:
`eliminated` is `i > 15` when `order == 'asc'` and `i <= n - 15` (Python
integer arithmetic, hence over `Int`) for every other order string. -/
def mkEntry (order : String) (n : Nat) (p : Nat × DriverLapInfo) : ReportEntry :=
  { position := p.1, name := p.2.driver_name, team := p.2.team,
    lap_time := lapTimeCell (pyLapTime p.2),
    eliminated :=
      if order = "asc" then decide (p.1 > 15)
      else decide ((p.1 : Int) ≤ (n : Int) - 15) }

/-- All entries of the report, positions starting at `i`. -/
def entriesOf (order : String) (n i : Nat) (l : List DriverLapInfo) : List ReportEntry :=
  (enumerate1 i l).map (mkEntry order n)

/-- Model of `Q1ReportGenerator.get_report_data`: rank (which evaluates the lap-time
property of every record and hence raises exactly when the loop body would),
then build the entry list with 1-based positions. -/
def get_report_data (drivers : List DriverLapInfo) (order : String) :
    Except Unit (List ReportEntry) :=
  match rank_drivers drivers order with
  | .error e => .error e
  | .ok ranked => .ok (entriesOf order ranked.length 1 ranked)

/-- The dictionary returned by `Q1ReportGenerator.get_driver_info` on a hit. -/
structure DriverInfoResult where
  name : String
  team : String
  lap_time : String
deriving DecidableEq, Repr

/-- Model of `Q1ReportGenerator.get_driver_info`: `self.processor.drivers.get(code)`
yields `None` (modelled `.ok none`) for an unknown code; on a hit the
lap-time property is read (possibly raising) and the info dict returned. -/
def get_driver_info (drivers : List DriverLapInfo) (code : String) :
    Except Unit (Option DriverInfoResult) :=
  match drivers.find? (fun d => d.driver_init == code) with
  | none => .ok none
  | some d =>
    match driver_lap_time d with
    | .error e => .error e
    | .ok t => .ok (some { name := d.driver_name, team := d.team, lap_time := lapTimeCell t })

/-- The `/report/` route of `app.py`:
`order = request.args.get('order', 'asc')` defaults only an absent parameter,
then the raw value is passed to `get_report_data`. -/
def report_route (drivers : List DriverLapInfo) (orderParam : Option String) :
    Except Unit (List ReportEntry) :=
  get_report_data drivers (orderParam.getD "asc")

/-! ### Specification-side helpers used only in theorem statements -/

/-- Names of the entries whose `eliminated` flag is false (the advancing
set). -/
def advancingOf (l : List ReportEntry) : List String :=
  (l.filter fun e => !e.eliminated).map fun e => e.name

/-- Advancing names of a report, `none` when the report raised. -/
def advancingNamesE (x : Except Unit (List ReportEntry)) : Option (List String) :=
  match x with
  | .ok l => some (advancingOf l)
  | .error _ => none

/-- Lap-time column of a report, `none` when the report raised. -/
def lapTimesE (x : Except Unit (List ReportEntry)) : Option (List String) :=
  match x with
  | .ok l => some (l.map fun e => e.lap_time)
  | .error _ => none

/-- Number of advancing (not eliminated) entries. -/
def advCount (l : List ReportEntry) : Nat :=
  (l.filter fun e => !e.eliminated).length

/-- The timestamp a single log line contributes for `code`: the parsed
timestamp when the stripped line matches the pattern, parses, and carries
that code. -/
def stampOf (code : String) (line : String) : Option Nat :=
  match matchLogLine (pyStrip line) with
  | none => none
  | some (c, tf) =>
    match strptime tf with
    | none => none
    | some t => if c = code then some t else none

/-- The timestamp of the last line contributing an entry for `code`. -/
def lastStamp (code : String) : List String → Option Nat
  | [] => none
  | l :: rest =>
    match lastStamp code rest with
    | some t => some t
    | none => stampOf code l

/-! ### Concrete inputs used by counterexamples and witnesses -/

/-- A record with a defined lap time of 100 microseconds. -/
def dDef : DriverLapInfo := ⟨"DEF", 0, some 100, "", ""⟩

/-- An anomaly record: its end time precedes its start time. -/
def dAno : DriverLapInfo := ⟨"ANO", 100, some 50, "", ""⟩

/-- A record whose lap time is defined and exactly zero. -/
def dZero : DriverLapInfo := ⟨"ZRO", 5, some 5, "Zed", "TZ"⟩

/-- A record created from a start-log line only: `end_time` was never
assigned. -/
def dStartOnly : DriverLapInfo := ⟨"AAA", 0, none, "", ""⟩

/-- Sixteen records, all with a defined lap time of zero (equal durations, so
the 15-record cutoff falls inside a tie). -/
def ds16 : List DriverLapInfo :=
  [⟨"D01", 0, some 0, "D01", ""⟩, ⟨"D02", 0, some 0, "D02", ""⟩,
   ⟨"D03", 0, some 0, "D03", ""⟩, ⟨"D04", 0, some 0, "D04", ""⟩,
   ⟨"D05", 0, some 0, "D05", ""⟩, ⟨"D06", 0, some 0, "D06", ""⟩,
   ⟨"D07", 0, some 0, "D07", ""⟩, ⟨"D08", 0, some 0, "D08", ""⟩,
   ⟨"D09", 0, some 0, "D09", ""⟩, ⟨"D10", 0, some 0, "D10", ""⟩,
   ⟨"D11", 0, some 0, "D11", ""⟩, ⟨"D12", 0, some 0, "D12", ""⟩,
   ⟨"D13", 0, some 0, "D13", ""⟩, ⟨"D14", 0, some 0, "D14", ""⟩,
   ⟨"D15", 0, some 0, "D15", ""⟩, ⟨"D16", 0, some 0, "D16", ""⟩]

/-- Two records for the metadata-pass counterexample. -/
def drvAB : List DriverLapInfo := [⟨"AAA", 0, some 1, "", ""⟩, ⟨"BBB", 0, some 2, "", ""⟩]

/-- A metadata file with a malformed line between two well-formed ones. -/
def abbrBad : List String := ["AAA_Alice_TeamA", "BAD", "BBB_Bob_TeamB"]

/-- A start log with two well-formed lines for the same code. -/
def dupLines : List String := ["ABC0001-01-01_00:00:00.000", "ABC0001-01-01_00:00:00.001"]

/-- Whether every record of the mapping has its `end_time` attribute set. -/
def allEndSet (ds : List DriverLapInfo) : Bool :=
  ds.all fun d => d.end_time.isSome

/-- Decidable equality of `Except` results, for evaluating the model on
concrete inputs. -/
instance {ε α : Type} [DecidableEq ε] [DecidableEq α] : DecidableEq (Except ε α) := fun a b =>
  match a, b with
  | .ok x, .ok y =>
    if h : x = y then isTrue (by rw [h]) else isFalse (fun hh => h (Except.ok.inj hh))
  | .error x, .error y =>
    if h : x = y then isTrue (by rw [h]) else isFalse (fun hh => h (Except.error.inj hh))
  | .ok _, .error _ => isFalse (fun hh => Except.noConfusion hh)
  | .error _, .ok _ => isFalse (fun hh => Except.noConfusion hh)

/-- Whether every metadata line a file holds splits into exactly three
fields (vacuously true for an unreadable file). -/
def metaWellFormed (aC : Option (List String)) : Bool :=
  match aC with
  | none => true
  | some ls => ls.all fun l => (pySplit '_' (pyStrip l)).length == 3

/-- Length of a report that did not raise. -/
def lenE (x : Except Unit (List DriverLapInfo)) : Option Nat :=
  match x with
  | .ok ds => some ds.length
  | .error _ => none

/-- End times of the records of a load that did not raise. -/
def endTimesE (x : Except Unit (List DriverLapInfo)) : Option (List (Option Nat)) :=
  match x with
  | .ok ds => some (ds.map fun d => d.end_time)
  | .error _ => none

/-- Advancing count of a report that did not raise. -/
def advCountE (x : Except Unit (List ReportEntry)) : Option Nat :=
  match x with
  | .ok l => some (advCount l)
  | .error _ => none

/-! ### General lemmas about the embedding -/

theorem insertLe_length (le : α → α → Bool) (a : α) (l : List α) :
    (insertLe le a l).length = l.length + 1 := by
  induction l with
  | nil => rfl
  | cons b l ih =>
    simp only [insertLe]
    split
    · simp
    · simp [ih]

theorem pySort_length (le : α → α → Bool) (l : List α) :
    (pySort le l).length = l.length := by
  induction l with
  | nil => rfl
  | cons a l ih => simp [pySort, insertLe_length, ih]

theorem mapLap_ok (ds : List DriverLapInfo) (h : ∀ d ∈ ds, d.end_time.isSome) :
    ∃ ts, mapLap ds = .ok ts := by
  induction ds with
  | nil => exact ⟨[], rfl⟩
  | cons d ds ih =>
    obtain ⟨e, he⟩ := Option.isSome_iff_exists.mp (h d (by simp))
    obtain ⟨ts, hts⟩ := ih fun x hx => h x (by simp [hx])
    by_cases hlt : e < d.start_time
    · exact ⟨none :: ts, by simp [mapLap, driver_lap_time, he, hlt, hts]⟩
    · exact ⟨some (e - d.start_time) :: ts, by simp [mapLap, driver_lap_time, he, hlt, hts]⟩

theorem entriesOf_cons (order : String) (n k : Nat) (a : DriverLapInfo)
    (l : List DriverLapInfo) :
    entriesOf order n k (a :: l) = mkEntry order n (k, a) :: entriesOf order n (k + 1) l := rfl

theorem advCount_cons_true (e : ReportEntry) (es : List ReportEntry)
    (h : e.eliminated = true) : advCount (e :: es) = advCount es := by
  simp [advCount, List.filter, h]

theorem advCount_cons_false (e : ReportEntry) (es : List ReportEntry)
    (h : e.eliminated = false) : advCount (e :: es) = advCount es + 1 := by
  simp [advCount, List.filter, h]

theorem advCount_asc (l : List DriverLapInfo) : ∀ (k n : Nat),
    advCount (entriesOf "asc" n k l) = min (k + l.length) 16 - min k 16 := by
  induction l with
  | nil =>
    intro k n
    show advCount [] = min (k + ([] : List DriverLapInfo).length) 16 - min k 16
    simp only [advCount, List.filter, List.length_nil]
    omega
  | cons a l ih =>
    intro k n
    rw [entriesOf_cons]
    have helim : (mkEntry "asc" n (k, a)).eliminated = decide (k > 15) := rfl
    by_cases hk : k > 15
    · rw [advCount_cons_true _ _ (by rw [helim, decide_eq_true hk]), ih]
      simp only [List.length_cons]
      omega
    · rw [advCount_cons_false _ _ (by rw [helim, decide_eq_false hk]), ih]
      simp only [List.length_cons]
      omega

theorem advCount_desc (l : List DriverLapInfo) : ∀ (k n : Nat),
    advCount (entriesOf "desc" n k l) = (k + l.length) - min (k + l.length) (max k (n - 14)) := by
  induction l with
  | nil =>
    intro k n
    show advCount [] =
      (k + ([] : List DriverLapInfo).length) - min (k + ([] : List DriverLapInfo).length)
        (max k (n - 14))
    simp only [advCount, List.filter, List.length_nil]
    omega
  | cons a l ih =>
    intro k n
    rw [entriesOf_cons]
    have helim : (mkEntry "desc" n (k, a)).eliminated = decide ((k : Int) ≤ (n : Int) - 15) := rfl
    by_cases hk : (k : Int) ≤ (n : Int) - 15
    · rw [advCount_cons_true _ _ (by rw [helim, decide_eq_true hk]), ih]
      simp only [List.length_cons]
      omega
    · rw [advCount_cons_false _ _ (by rw [helim, decide_eq_false hk]), ih]
      simp only [List.length_cons]
      omega

theorem updateDriver_end_times (code nm tm : String) (l : List DriverLapInfo) :
    (updateDriver code nm tm l).map (fun d => d.end_time) = l.map fun d => d.end_time := by
  induction l with
  | nil => rfl
  | cons d ds ih =>
    simp only [updateDriver]
    split <;> simp [ih]

theorem integrateLines_ok (lines : List String) :
    ∀ ds : List DriverLapInfo, (∀ l ∈ lines, (pySplit '_' (pyStrip l)).length = 3) →
      ∃ ds2, integrateLines lines ds = .ok ds2 ∧
        ds2.map (fun d => d.end_time) = ds.map fun d => d.end_time := by
  induction lines with
  | nil => exact fun ds _ => ⟨ds, rfl, rfl⟩
  | cons line rest ih =>
    intro ds h
    have h3 : (pySplit '_' (pyStrip line)).length = 3 := h line (by simp)
    match hsplit : pySplit '_' (pyStrip line) with
    | [a, b, c] =>
      obtain ⟨ds2, hok, hmap⟩ := ih (updateDriver a b c ds) fun l hl => h l (by simp [hl])
      exact ⟨ds2, by simp [integrateLines, hsplit, hok],
        by rw [hmap, updateDriver_end_times]⟩
    | [] => simp [hsplit] at h3
    | [a] => simp [hsplit] at h3
    | [a, b] => simp [hsplit] at h3
    | a :: b :: c :: d :: t => simp [hsplit] at h3

theorem readLines_skip (line : String) (h : matchLogLine (pyStrip line) = none)
    (post : List String) :
    ∀ (pre : List String) (acc : List (String × Nat)),
      readLines (pre ++ line :: post) acc = readLines (pre ++ post) acc := by
  intro pre
  induction pre with
  | nil =>
    intro acc
    simp [readLines, h]
  | cons a pre ih =>
    intro acc
    show readLines (a :: (pre ++ line :: post)) acc = readLines (a :: (pre ++ post)) acc
    cases hma : matchLogLine (pyStrip a) with
    | none =>
      simp only [readLines, hma]
      exact ih acc
    | some p =>
      obtain ⟨c, tf⟩ := p
      cases hst : strptime tf with
      | none => simp only [readLines, hma, hst]
      | some ts =>
        simp only [readLines, hma, hst]
        exact ih (alistInsert c ts acc)

theorem alistLookup_insert (code k : String) (v : Nat) (l : List (String × Nat)) :
    alistLookup code (alistInsert k v l) = if k = code then some v else alistLookup code l := by
  induction l with
  | nil => simp only [alistInsert, alistLookup]
  | cons p rest ih =>
    obtain ⟨k', v'⟩ := p
    by_cases hk : k' = k
    · subst hk
      by_cases hc : k' = code
      · subst hc
        simp [alistInsert, alistLookup]
      · simp [alistInsert, alistLookup, hc]
    · by_cases hc : k' = code
      · have hkc : ¬ k = code := by
          rw [← hc]
          exact fun hh => hk hh.symm
        have hck : ¬ code = k := fun hh => hkc hh.symm
        simp [alistInsert, alistLookup, hk, hc, hkc, hck]
      · simp [alistInsert, alistLookup, hk, hc, ih]

theorem mem_keys_insert (x k : String) (v : Nat) (l : List (String × Nat)) :
    x ∈ (alistInsert k v l).map Prod.fst ↔ x ∈ l.map Prod.fst ∨ x = k := by
  induction l with
  | nil => simp [alistInsert]
  | cons p rest ih =>
    obtain ⟨k', v'⟩ := p
    by_cases hk : k' = k
    · subst hk
      simp [alistInsert]
      tauto
    · simp [alistInsert, hk, ih]
      tauto

theorem keys_nodup_insert (k : String) (v : Nat) (l : List (String × Nat))
    (h : (l.map Prod.fst).Nodup) : ((alistInsert k v l).map Prod.fst).Nodup := by
  induction l with
  | nil => simp [alistInsert]
  | cons p rest ih =>
    obtain ⟨k', v'⟩ := p
    simp only [List.map_cons, List.nodup_cons] at h
    by_cases hk : k' = k
    · subst hk
      have hins : alistInsert k' v ((k', v') :: rest) = (k', v) :: rest := by
        simp [alistInsert]
      rw [hins, List.map_cons, List.nodup_cons]
      exact ⟨h.1, h.2⟩
    · simp only [alistInsert, if_neg hk, List.map_cons, List.nodup_cons]
      refine ⟨fun hin => ?_, ih h.2⟩
      rw [mem_keys_insert] at hin
      rcases hin with hin | hek
      · exact h.1 hin
      · exact hk hek

theorem readLines_lookup (code : String) : ∀ (lines : List String)
    (acc m : List (String × Nat)), readLines lines acc = .ok m →
      alistLookup code m =
        (match lastStamp code lines with
         | some t => some t
         | none => alistLookup code acc) := by
  intro lines
  induction lines with
  | nil =>
    intro acc m h
    cases h
    simp [lastStamp]
  | cons line rest ih =>
    intro acc m h
    cases hma : matchLogLine (pyStrip line) with
    | none =>
      simp only [readLines, hma] at h
      rw [ih acc m h]
      have hs : stampOf code line = none := by simp [stampOf, hma]
      simp only [lastStamp, hs]
      cases hls : lastStamp code rest <;> rfl
    | some p =>
      obtain ⟨c, tf⟩ := p
      cases hst : strptime tf with
      | none =>
        simp only [readLines, hma, hst] at h
        exact Except.noConfusion h
      | some ts =>
        simp only [readLines, hma, hst] at h
        rw [ih (alistInsert c ts acc) m h]
        have hs : stampOf code line = if c = code then some ts else none := by
          simp [stampOf, hma, hst]
        simp only [lastStamp, hs]
        cases hls : lastStamp code rest with
        | some t => rfl
        | none =>
          rw [alistLookup_insert]
          by_cases hcc : c = code <;> simp [hcc]

theorem readLines_nodup : ∀ (lines : List String) (acc m : List (String × Nat)),
    readLines lines acc = .ok m → (acc.map Prod.fst).Nodup → (m.map Prod.fst).Nodup := by
  intro lines
  induction lines with
  | nil =>
    intro acc m h hn
    cases h
    exact hn
  | cons line rest ih =>
    intro acc m h hn
    cases hma : matchLogLine (pyStrip line) with
    | none =>
      simp only [readLines, hma] at h
      exact ih acc m h hn
    | some p =>
      obtain ⟨c, tf⟩ := p
      cases hst : strptime tf with
      | none =>
        simp only [readLines, hma, hst] at h
        exact Except.noConfusion h
      | some ts =>
        simp only [readLines, hma, hst] at h
        exact ih (alistInsert c ts acc) m h (keys_nodup_insert c ts acc hn)

/-! ### Theorems for the claims -/

/-- C1: the claim states that `rank_drivers` places every record with a
defined duration before every record with undefined duration under both
`asc` and `desc`.  The code's own comment ("Anomaly data should alway be the
end of our classification") agrees, but `reverse=(order == 'desc')` also
reverses the anomaly component of the sort key: under `desc` the anomaly
record is returned first, not last.  This theorem evaluates the code at the
failing input. -/
theorem c1_desc_anomaly_first :
    rank_drivers [dDef, dAno] "asc" = .ok [dDef, dAno] ∧
      rank_drivers [dDef, dAno] "desc" = .ok [dAno, dDef] := by
  decide

/-- C2: the claim states that a record created from a start-log line whose
code never appears in the end log has duration `None` (no error) and ranks
last.  In the code `end_time` is a `field(init=False)` dataclass attribute
that is simply never assigned for such a record, so reading the
`driver_lap_time` property raises `AttributeError`, and ranking such a
record raises as well.  This theorem evaluates the code at the failing
input: a one-line start log and a missing end log. -/
theorem c2_start_only_record_raises :
    process_files (some ["AAA0001-01-01_00:00:00.000"]) none none = .ok [dStartOnly] ∧
      driver_lap_time dStartOnly = .error () ∧
      rank_drivers [dStartOnly] "asc" = .error () ∧
      rank_drivers [dStartOnly] "desc" = .error () := by
  decide

/-- C5: the claim states that the lap-time field is "NO TIME" if and only if
the duration is undefined, a zero duration included.  `get_report_data` and
`get_driver_info` test the lap time for truthiness (`if driver.driver_lap_time`)
rather than `is not None` (which the sibling `print_report` uses), and a zero
`timedelta` is falsy: a record whose end time equals its start time has a
defined duration yet is rendered as "NO TIME".  This theorem evaluates the
code at the failing input. -/
theorem c5_zero_duration_sentinel :
    driver_lap_time dZero = .ok (some 0) ∧
      get_driver_info [dZero] "ZRO" = .ok (some ⟨"Zed", "TZ", "NO TIME"⟩) ∧
      lapTimesE (get_report_data [dZero] "asc") = some ["NO TIME"] := by
  decide

/-- C8: the claim states that `get_driver_info` returns `None` for an absent
code (which holds) and returns the record's info for every present code.
For a present code whose record was never given an end time, reading the
lap-time property raises `AttributeError` instead.  This theorem evaluates
both halves: the absent code yields the absence signal, the present
start-only record raises. -/
theorem c8_lookup_present_code_raises :
    get_driver_info [dStartOnly] "ZZZ" = .ok none ∧
      get_driver_info [dStartOnly] "AAA" = .error () := by
  decide

/-- C3 counterexample: with sixteen records of equal (zero) duration the
ascending view advances positions 1-15, i.e. the first fifteen records in
original order, while the descending view advances the last fifteen
positions, i.e. the last fifteen records in original order: record "D01"
advances in the ascending view but not in the descending view, so the two
advancing sets are not the same set of participants. -/
theorem c3_advancing_sets_differ :
    List.contains ((advancingNamesE (get_report_data ds16 "asc")).getD []) "D01" = true ∧
      List.contains ((advancingNamesE (get_report_data ds16 "desc")).getD []) "D01" = false := by
  decide

/-- C4 counterexample: a metadata line that does not split into exactly three
underscore-delimited fields is not silently skipped: the tuple unpacking
raises an uncaught `ValueError`, so the metadata pass aborts instead of
applying the remaining well-formed lines. -/
theorem c4_malformed_metadata_raises :
    integrate_driver_info (some abbrBad) drvAB = .error () := by
  decide

/-- C6 counterexample: for the unrecognized order value "foo" the ranked
sequence equals the ascending one, but the report is not identical to the
ascending report: the eliminated flags are computed by the descending rule
(`i <= total - 15`), so with sixteen records position 1 is eliminated and
position 16 advances, the opposite of the ascending view. -/
theorem c6_unrecognized_order_differs :
    rank_drivers ds16 "foo" = rank_drivers ds16 "asc" ∧
      report_route ds16 (some "foo") ≠ report_route ds16 (some "asc") := by
  decide

/-- C7 counterexample: a directory whose `end.log` is missing does not make
the load immune to aborting: if the (present) abbreviations file contains a
line that does not split into three fields, the load raises the uncaught
`ValueError` of the metadata pass, so the claim's universal "never raises"
fails. -/
theorem c7_missing_end_log_still_raises :
    process_files (some ["AAA0001-01-01_00:00:00.000"]) none (some ["BAD"]) = .error () := by
  decide

theorem integrateLines_error (line : String)
    (hbad : (pySplit '_' (pyStrip line)).length ≠ 3) :
    ∀ (lines : List String), line ∈ lines →
      ∀ ds : List DriverLapInfo, integrateLines lines ds = .error () := by
  intro lines
  induction lines with
  | nil =>
    intro hmem
    cases hmem
  | cons a rest ih =>
    intro hmem ds
    match hsplit : pySplit '_' (pyStrip a) with
    | [x, y, z] =>
      have hr : line ∈ rest := by
        rcases List.mem_cons.mp hmem with heq | hr
        · rw [heq, hsplit] at hbad
          simp at hbad
        · exact hr
      show integrateLines (a :: rest) ds = .error ()
      simp only [integrateLines, hsplit]
      exact ih hr (updateDriver x y z ds)
    | [] => simp [integrateLines, hsplit]
    | [x] => simp [integrateLines, hsplit]
    | [x, y] => simp [integrateLines, hsplit]
    | x :: y :: z :: w :: t => simp [integrateLines, hsplit]

theorem rel_of_not_desc (order : String) (h : ¬ order = "desc") : rel order = rel "asc" := by
  funext a b
  simp only [rel]
  rw [if_neg h, if_neg (by decide)]

theorem mkEntry_of_not_asc (order : String) (h : ¬ order = "asc") :
    mkEntry order = mkEntry "desc" := by
  funext n p
  simp only [mkEntry]
  rw [if_neg h, if_neg (by decide)]

theorem lookup_empty_map (s : List (String × Nat)) :
    (s.map fun p => alistLookup p.1 ([] : List (String × Nat))) =
      List.replicate s.length none := by
  induction s with
  | nil => rfl
  | cons p rest ih =>
    simp only [List.map_cons, List.length_cons, List.replicate_succ]
    rw [ih]
    rfl

theorem process_files_ok (sC eC aC : Option (List String)) (s e : List (String × Nat))
    (hs : read_log_file sC = .ok s) (he : read_log_file eC = .ok e)
    (ha : metaWellFormed aC = true) :
    ∃ ds, process_files sC eC aC = .ok ds ∧
      ds.map (fun d => d.end_time) = s.map fun p => alistLookup p.1 e := by
  have hint : ∀ ds0 : List DriverLapInfo, ∃ ds2, integrate_driver_info aC ds0 = .ok ds2 ∧
      ds2.map (fun d => d.end_time) = ds0.map fun d => d.end_time := by
    intro ds0
    cases aC with
    | none => exact ⟨ds0, rfl, rfl⟩
    | some ls =>
      have h3 : ∀ l ∈ ls, (pySplit '_' (pyStrip l)).length = 3 := by
        intro l hl
        simp only [metaWellFormed] at ha
        have hb := List.all_eq_true.mp ha l hl
        simpa using hb
      exact integrateLines_ok ls ds0 h3
  obtain ⟨ds2, hok, hmap⟩ := hint (s.map fun p =>
    { driver_init := p.1, start_time := p.2, end_time := alistLookup p.1 e,
      driver_name := "", team := "" })
  refine ⟨ds2, ?_, ?_⟩
  · simp only [process_files, hs, he]
    exact hok
  · rw [hmap, List.map_map]
    rfl

/-! ### Remaining claim theorems -/

/-- C3 amended: the two display orders advance the same number of
participants, `min total 15`, but not necessarily the same set: the ascending
view advances positions 1-15 while the descending view advances the last 15
positions, and when durations tie at the cutoff (or anomaly records push into
it) the two position windows select different records, as the counterexample
shows. -/
theorem c3_advancing_count_agrees (drivers : List DriverLapInfo)
    (h : allEndSet drivers = true) :
    advCountE (get_report_data drivers "asc") = some (min drivers.length 15) ∧
      advCountE (get_report_data drivers "desc") = some (min drivers.length 15) := by
  have hall : ∀ d ∈ drivers, d.end_time.isSome := by
    intro d hd
    exact List.all_eq_true.mp h d hd
  obtain ⟨ts, hts⟩ := mapLap_ok drivers hall
  constructor
  · simp only [get_report_data, rank_drivers, hts, advCountE]
    rw [advCount_asc, pySort_length]
    have hmin : min (1 + drivers.length) 16 - min 1 16 = min drivers.length 15 := by omega
    rw [hmin]
  · simp only [get_report_data, rank_drivers, hts, advCountE]
    rw [advCount_desc, pySort_length]
    have hmin : 1 + drivers.length -
        min (1 + drivers.length) (max 1 (drivers.length - 14)) = min drivers.length 15 := by
      omega
    rw [hmin]

/-- C3 witness: the amended count statement evaluated at the sixteen-record
tie input. -/
theorem c3_advancing_count_agrees_witness :
    allEndSet ds16 = true ∧
      (advCountE (get_report_data ds16 "asc") = some (min ds16.length 15) ∧
        advCountE (get_report_data ds16 "desc") = some (min ds16.length 15)) :=
  ⟨by decide, c3_advancing_count_agrees ds16 (by decide)⟩

/-- C4 amended: a metadata line that does not split into exactly three
underscore-delimited fields raises an uncaught `ValueError` that aborts the
whole metadata pass (lines before it have already been applied in place,
lines after it are never reached); only a well-formed line whose code matches
no record is silently skipped. -/
theorem c4_malformed_metadata_aborts (lines : List String) (ds : List DriverLapInfo)
    (line : String) (hmem : line ∈ lines)
    (hbad : (pySplit '_' (pyStrip line)).length ≠ 3) :
    integrate_driver_info (some lines) ds = .error () :=
  integrateLines_error line hbad lines hmem ds

/-- C4 witness: the amended abort statement evaluated on a one-line malformed
metadata file. -/
theorem c4_malformed_metadata_aborts_witness :
    ("BAD" ∈ ["BAD"] ∧ (pySplit '_' (pyStrip "BAD")).length ≠ 3) ∧
      integrate_driver_info (some ["BAD"]) [] = .error () :=
  ⟨⟨by decide, by decide⟩,
    c4_malformed_metadata_aborts ["BAD"] [] "BAD" (by decide) (by decide)⟩

/-- C6 amended: an order value that is neither "asc" nor "desc" produces the
ascending record sequence (the sort treats it as ascending), but the
eliminated flags follow the descending formula `i <= total - 15`: only the
sort direction, not the elimination rule, falls back to ascending. -/
theorem c6_unrecognized_order_asc_sort_desc_flags (drivers : List DriverLapInfo)
    (order : String) (h1 : ¬ order = "asc") (h2 : ¬ order = "desc") :
    rank_drivers drivers order = rank_drivers drivers "asc" ∧
      report_route drivers (some order) =
        (match rank_drivers drivers "asc" with
         | .error e => .error e
         | .ok ranked => .ok (entriesOf "desc" ranked.length 1 ranked)) := by
  have hrel := rel_of_not_desc order h2
  constructor
  · simp only [rank_drivers, hrel]
  · show get_report_data drivers order = _
    simp only [get_report_data, rank_drivers, hrel, entriesOf, mkEntry_of_not_asc order h1]

/-- C6 witness: the amended statement evaluated at order "foo" on a one-record
mapping. -/
theorem c6_unrecognized_order_asc_sort_desc_flags_witness :
    (¬ "foo" = "asc") ∧ (¬ "foo" = "desc") ∧
      (rank_drivers [dDef] "foo" = rank_drivers [dDef] "asc" ∧
        report_route [dDef] (some "foo") =
          (match rank_drivers [dDef] "asc" with
           | .error e => .error e
           | .ok ranked => .ok (entriesOf "desc" ranked.length 1 ranked))) :=
  ⟨by decide, by decide,
    c6_unrecognized_order_asc_sort_desc_flags [dDef] "foo" (by decide) (by decide)⟩

/-- C7 amended: a missing or unreadable file contributes an empty dataset and
the load still succeeds, provided the files that are readable do not
independently raise (every readable metadata line splits into three fields;
readable log lines that match the pattern carry valid timestamps, which holds
in particular when a read succeeds): the records are built from the start
entries, a missing start log yields an empty mapping, and a missing end log
leaves every record's end time unset. -/
theorem c7_missing_file_empty_contribution (sC eC aC : Option (List String))
    (s e : List (String × Nat))
    (hs : read_log_file sC = .ok s) (he : read_log_file eC = .ok e)
    (ha : metaWellFormed aC = true) :
    lenE (process_files sC eC aC) = some s.length ∧
      (sC = none → process_files sC eC aC = .ok []) ∧
      (eC = none → endTimesE (process_files sC eC aC) =
        some (List.replicate s.length none)) := by
  obtain ⟨ds, hok, hmap⟩ := process_files_ok sC eC aC s e hs he ha
  have hlen : ds.length = s.length := by
    have hcg := congrArg List.length hmap
    simpa using hcg
  refine ⟨?_, ?_, ?_⟩
  · rw [hok]
    simp only [lenE]
    rw [hlen]
  · intro hsc
    subst hsc
    have hs0 : s = [] := (Except.ok.inj hs).symm
    subst hs0
    have hds : ds = [] := by
      simpa using hmap
    rw [hok, hds]
  · intro hec
    subst hec
    have he0 : e = [] := (Except.ok.inj he).symm
    subst he0
    rw [hok]
    simp only [endTimesE]
    rw [hmap, lookup_empty_map]

/-- C7 witness: the amended statement evaluated at a one-line start log with
the end log and the abbreviations file both unreadable. -/
theorem c7_missing_file_empty_contribution_witness :
    read_log_file (some ["AAA0001-01-01_00:00:00.000"]) = .ok [("AAA", 0)] ∧
      read_log_file none = .ok [] ∧ metaWellFormed none = true ∧
      (lenE (process_files (some ["AAA0001-01-01_00:00:00.000"]) none none) =
          some ([("AAA", (0 : Nat))] : List (String × Nat)).length ∧
        (some ["AAA0001-01-01_00:00:00.000"] = none →
          process_files (some ["AAA0001-01-01_00:00:00.000"]) none none = .ok []) ∧
        ((none : Option (List String)) = none →
          endTimesE (process_files (some ["AAA0001-01-01_00:00:00.000"]) none none) =
            some (List.replicate ([("AAA", (0 : Nat))] : List (String × Nat)).length none))) :=
  ⟨by decide, by decide, by decide,
    c7_missing_file_empty_contribution (some ["AAA0001-01-01_00:00:00.000"]) none none
      [("AAA", 0)] [] (by decide) (by decide) (by decide)⟩

/-- C9: a start-log or end-log line whose stripped text does not match the
three-uppercase-letters-then-timestamp pattern is silently skipped: the
mapping built by `read_log_file` is exactly the one built without that line,
so no entry and hence no record arises from it. -/
theorem c9_nonmatching_line_skipped (pre post : List String) (line : String)
    (h : matchLogLine (pyStrip line) = none) :
    read_log_file (some (pre ++ line :: post)) = read_log_file (some (pre ++ post)) := by
  show readLines (pre ++ line :: post) [] = readLines (pre ++ post) []
  exact readLines_skip line h post pre []

/-- C9 witness: the spec's example line "XYZ_not_a_timestamp" is skipped. -/
theorem c9_nonmatching_line_skipped_witness :
    matchLogLine (pyStrip "XYZ_not_a_timestamp") = none ∧
      read_log_file (some ["XYZ_not_a_timestamp"]) = read_log_file (some []) :=
  ⟨by decide, c9_nonmatching_line_skipped [] [] "XYZ_not_a_timestamp" (by decide)⟩

/-- C10: when `read_log_file` returns a mapping, that mapping holds at most
one entry per code (its keys are nodup), and the entry for any code carries
the timestamp of the last well-formed line for that code in file order:
later well-formed lines overwrite earlier ones. -/
theorem c10_duplicate_code_last_wins (lines : List String) (m : List (String × Nat))
    (code : String) (h : read_log_file (some lines) = .ok m) :
    (m.map Prod.fst).Nodup ∧ alistLookup code m = lastStamp code lines := by
  have h' : readLines lines [] = .ok m := h
  constructor
  · exact readLines_nodup lines [] m h' (by simp)
  · have hlk := readLines_lookup code lines [] m h'
    rw [hlk]
    cases lastStamp code lines <;> rfl

/-- C10 witness: two well-formed lines for code "ABC"; the mapping holds one
entry carrying the second line's timestamp. -/
theorem c10_duplicate_code_last_wins_witness :
    read_log_file (some dupLines) = .ok [("ABC", 1000)] ∧
      ((([("ABC", (1000 : Nat))] : List (String × Nat)).map Prod.fst).Nodup ∧
        alistLookup "ABC" [("ABC", 1000)] = lastStamp "ABC" dupLines) :=
  ⟨by decide, c10_duplicate_code_last_wins dupLines [("ABC", 1000)] "ABC" (by decide)⟩

end Monaco
